import Mathlib

/-!
Shallow embedding of the batch deletion engine of the gmail-bulk-cleanup
repository: the command-line tool (src/gmail_bulk_delete.py) and the Flask
web server (src/gmail_ui.py).

The remote Gmail service is an external collaborator; its behaviour is
modelled by a trace of responses that the embedded functions consume in the
order in which the Python code issues remote calls.  Every definition below
mirrors one Python function or statement; nothing is simplified away from
the control flow that the claims are about.
-/

/-- One round of the deletion loop, as seen from the remote side: either the
`users().messages().list` call returns a page (the list of message ids and
whether a `nextPageToken` is present) together with the outcome of the
`batchDelete` call the loop would issue for this page (`none` = success,
`some msg` = HttpError raised by `batchDelete`), or the list call itself
raises an HttpError. -/
inductive PageResult where
  | ok (ids : List String) (hasNext : Bool) (delFail : Option String)
  | listFail (msg : String)
deriving DecidableEq

/-- A remote call issued by the engine: a `list` request, or a `batchDelete`
request carrying the message ids submitted for deletion. -/
inductive RemoteCall where
  | list
  | batchDelete (ids : List String)
deriving DecidableEq

/-- Outcome of the CLI deletion loop (gmail_bulk_delete.py, the
`while True` loop of `delete_emails_by_query`).  `outOfPages` marks a run
whose response trace was exhausted while the loop would have kept going;
it never occurs on a well-formed trace. -/
inductive RunResult where
  | complete (total : Nat)
  | error (msg : String) (totalAtFailure : Nat)
  | outOfPages (total : Nat)
deriving DecidableEq

/-- The `while True` loop of `delete_emails_by_query` in
gmail_bulk_delete.py (lines 237-267): fetch a page; stop when it is empty;
otherwise issue one `batchDelete` for exactly the ids of the page, add the
page length to the running total, and continue while a `nextPageToken` is
present.  An HttpError from either remote call ends the run with the total
reached so far.  Returns the remote calls issued and the outcome. -/
def cliLoop : List PageResult → Nat → List RemoteCall × RunResult
  | [], total => ([], RunResult.outOfPages total)
  | PageResult.listFail msg :: _, total =>
      ([RemoteCall.list], RunResult.error msg total)
  | PageResult.ok ids hasNext delFail :: rest, total =>
      if ids = [] then ([RemoteCall.list], RunResult.complete total)
      else
        match delFail with
        | some msg =>
            ([RemoteCall.list, RemoteCall.batchDelete ids],
             RunResult.error msg total)
        | none =>
            if hasNext then
              let r := cliLoop rest (total + ids.length)
              (RemoteCall.list :: RemoteCall.batchDelete ids :: r.1, r.2)
            else
              ([RemoteCall.list, RemoteCall.batchDelete ids],
               RunResult.complete (total + ids.length))

/-- The batch-size clamp of gmail_bulk_delete.py lines 231-232:
`if batch_size > 500: batch_size = 500`. -/
def effectiveBatchSize (batch_size : Nat) : Nat :=
  if batch_size > 500 then 500 else batch_size

/-- `delete_emails_by_query(service, query, batch_size)` of
gmail_bulk_delete.py (lines 216-273).  The first component is the clamped
batch size, which is the `maxResults` parameter the code sends with every
list call; the second the remote calls issued; the third the Python return
value: the total on success, the partial total when an HttpError was caught
(lines 269-271), and `none` only when the response trace ran out. -/
def delete_emails_by_query (batch_size : Nat) (env : List PageResult) :
    Nat × List RemoteCall × Option Nat :=
  let bs := effectiveBatchSize batch_size
  let r := cliLoop env 0
  (bs, r.1,
    match r.2 with
    | RunResult.complete t => some t
    | RunResult.error _ t => some t
    | RunResult.outOfPages _ => none)

/-- The `deletion_progress` dict of gmail_ui.py line 54:
`{'current': 0, 'total': 0, 'status': 'idle'}`; the `error` key is only
added by the generic exception handler of `do_deletion`. -/
structure Progress where
  current : Nat
  total : Int
  status : String
  error : Option String
deriving DecidableEq

/-- Result of a run of the web-server deletion loop: the remote calls
issued, the final `deletion_progress` state, and the Python return value
(`none` only when the response trace ran out). -/
structure UiRunResult where
  calls : List RemoteCall
  prog : Progress
  ret : Option Int
deriving DecidableEq

/-- The `while True` loop of `delete_emails_by_query` in gmail_ui.py
(lines 87-105): same fetch/delete loop as the CLI, but it publishes the
running total to `deletion_progress['current']` after every successful
batch, sets `status` to `'error'` and returns `-1` on an HttpError, and
sets `status` to `'complete'` and returns the total on success.  Note that
the HttpError handler does not write `deletion_progress['error']`. -/
def uiLoop : List PageResult → Nat → Progress → UiRunResult
  | [], _, prog => ⟨[], prog, none⟩
  | PageResult.listFail _ :: _, _, prog =>
      ⟨[RemoteCall.list], { prog with status := "error" }, some (-1)⟩
  | PageResult.ok ids hasNext delFail :: rest, total, prog =>
      if ids = [] then
        ⟨[RemoteCall.list], { prog with status := "complete" },
         some (Int.ofNat total)⟩
      else
        match delFail with
        | some _ =>
            ⟨[RemoteCall.list, RemoteCall.batchDelete ids],
             { prog with status := "error" }, some (-1)⟩
        | none =>
            let t := total + ids.length
            let prog2 := { prog with current := t }
            if hasNext then
              let r := uiLoop rest t prog2
              ⟨RemoteCall.list :: RemoteCall.batchDelete ids :: r.calls,
               r.prog, r.ret⟩
            else
              ⟨[RemoteCall.list, RemoteCall.batchDelete ids],
               { prog2 with status := "complete" }, some (Int.ofNat t)⟩

/-- `delete_emails_by_query(service, query)` of gmail_ui.py (lines 81-105):
sets `deletion_progress['status'] = 'deleting'` and runs the loop with a
fixed page size of `CONFIG['batch_size'] = 500`. -/
def ui_delete_emails_by_query (env : List PageResult) (prog : Progress) :
    UiRunResult :=
  uiLoop env 0 { prog with status := "deleting" }

/-- Outcome of the single `list(maxResults=1)` call made by the two
`count_emails` functions: the response's `resultSizeEstimate` field, or an
HttpError. -/
inductive CountCallOutcome where
  | ok (resultSizeEstimate : Nat)
  | httpError (msg : String)
deriving DecidableEq

/-- `count_emails(service, query)` of gmail_bulk_delete.py (lines 192-213):
returns the estimate; on HttpError it prints a message and returns `0`. -/
def count_emails (o : CountCallOutcome) : Int :=
  match o with
  | CountCallOutcome.ok n => Int.ofNat n
  | CountCallOutcome.httpError _ => 0

/-- `count_emails(service, query)` of gmail_ui.py (lines 74-79): returns
the estimate; on HttpError it returns `-1`. -/
def ui_count_emails (o : CountCallOutcome) : Int :=
  match o with
  | CountCallOutcome.ok n => Int.ofNat n
  | CountCallOutcome.httpError _ => -1

/-- The module-level mutable state of gmail_ui.py (lines 53-54):
`deletion_in_progress` and `deletion_progress`. -/
structure ServerState where
  deletion_in_progress : Bool
  deletion_progress : Progress
deriving DecidableEq

/-- The `do_deletion` worker of gmail_ui.py (lines 143-156), run to
completion (the sequential embedding of the worker thread): set the flag,
count (one list call), store the count in `deletion_progress['total']`,
reset `current`, run the deletion loop, clear the flag.  The flag stays set
only when the response trace ran out mid-loop. -/
def do_deletion (c : CountCallOutcome) (env : List PageResult)
    (st : ServerState) : ServerState × List RemoteCall :=
  let cnt := ui_count_emails c
  let p0 : Progress := { st.deletion_progress with total := cnt, current := 0 }
  let r := ui_delete_emails_by_query env p0
  (⟨r.ret.isNone, r.prog⟩, RemoteCall.list :: r.calls)

/-- HTTP-level outcome of `POST /api/delete` in gmail_ui.py:
`alreadyRunning` is the 400 response `'Deletion in progress'`, `noQuery`
the 400 response `'No query'`, `started` the 200 response
`{'status': 'deleting'}`. -/
inductive ApiDeleteResponse where
  | alreadyRunning
  | noQuery
  | started
deriving DecidableEq

/-- The `delete` endpoint of gmail_ui.py (lines 133-160): reject while
`deletion_in_progress` is set, then reject an empty query, otherwise run
`do_deletion`.  Returns the response, the new server state and the remote
calls issued. -/
def api_delete (st : ServerState) (query : String) (c : CountCallOutcome)
    (env : List PageResult) :
    ApiDeleteResponse × ServerState × List RemoteCall :=
  if st.deletion_in_progress then (ApiDeleteResponse.alreadyRunning, st, [])
  else if query = "" then (ApiDeleteResponse.noQuery, st, [])
  else
    let r := do_deletion c env st
    (ApiDeleteResponse.started, r.1, r.2)

/-- The `progress` endpoint of gmail_ui.py (lines 162-164): a side-effect
free read of `deletion_progress`. -/
def api_progress (st : ServerState) : Progress :=
  st.deletion_progress

/-- A response trace on which the deletion loop terminates before the
trace runs out. -/
def traceTerminates : List PageResult → Bool
  | [] => false
  | PageResult.listFail _ :: _ => true
  | PageResult.ok ids hasNext delFail :: rest =>
      if ids = [] then true
      else
        match delFail with
        | some _ => true
        | none => if hasNext then traceTerminates rest else true

/-- A sequence of successfully listed and deleted pages, each with a
`nextPageToken` present, as a response trace. -/
def okPages (pref : List (List String)) : List PageResult :=
  pref.map (fun ids => PageResult.ok ids true none)

/-- The remote calls of a run over `okPages`. -/
def okCalls : List (List String) → List RemoteCall
  | [] => []
  | ids :: rest => RemoteCall.list :: RemoteCall.batchDelete ids :: okCalls rest

/-- Total number of ids in a sequence of pages. -/
def sizes (pref : List (List String)) : Nat :=
  (pref.map List.length).sum

/-- The id lists submitted by the batch-delete calls among a call trace. -/
def batchesOf (calls : List RemoteCall) : List (List String) :=
  calls.filterMap (fun c =>
    match c with
    | RemoteCall.batchDelete ids => some ids
    | RemoteCall.list => none)

/-- Number of ids a single remote call submits for deletion. -/
def callBatchSize : RemoteCall → Nat
  | RemoteCall.list => 0
  | RemoteCall.batchDelete ids => ids.length

/-- Executable model of Python's `str.strip()`: drop leading and trailing
whitespace (ASCII whitespace; the queries and confirmation markers the
program compares against are ASCII). -/
def pyStrip (s : String) : String :=
  String.mk (((s.data.dropWhile Char.isWhitespace).reverse.dropWhile Char.isWhitespace).reverse)

/-- Executable model of Python's `str.lower()` (ASCII case folding). -/
def pyLower (s : String) : String :=
  String.mk (s.data.map Char.toLower)

/-- One entry of the FILTERS table of gmail_bulk_delete.py (named Filter
in the spec; the name FilterEntry avoids the Mathlib root name). -/
structure FilterEntry where
  label : String
  query : String
  category : String
deriving DecidableEq

/-- The FILTERS table of gmail_bulk_delete.py (lines 39-138). -/
def FILTERS : List (String × FilterEntry) := [
  ("old_2y", ⟨"Emails older than 2 years", "older_than:2y", "Time-based"⟩),
  ("old_1y", ⟨"Emails older than 1 year", "older_than:1y", "Time-based"⟩),
  ("old_6m", ⟨"Emails older than 6 months", "older_than:6m", "Time-based"⟩),
  ("old_3m", ⟨"Emails older than 3 months", "older_than:3m", "Time-based"⟩),
  ("cat_promotions", ⟨"Promotions", "category:promotions", "Categories"⟩),
  ("cat_social", ⟨"Social updates", "category:social", "Categories"⟩),
  ("cat_updates", ⟨"Updates & notifications", "category:updates", "Categories"⟩),
  ("cat_forums", ⟨"Forums", "category:forums", "Categories"⟩),
  ("no_star", ⟨"Unstarred emails (excluding important)", "-is:starred -label:Important", "Star Status"⟩),
  ("read_all", ⟨"All read emails", "is:read", "Read Status"⟩),
  ("read_old", ⟨"Read emails older than 1 year", "is:read older_than:1y", "Read Status"⟩),
  ("no_attach", ⟨"Emails without attachments", "-has:attachment", "Attachments"⟩),
  ("no_attach_old", ⟨"Read emails without attachments older than 1 year", "is:read -has:attachment older_than:1y", "Attachments"⟩),
  ("trash", ⟨"Already in Trash", "in:trash", "Labels"⟩),
  ("spam", ⟨"Spam folder", "in:spam", "Labels"⟩),
  ("clean_up", ⟨"Promotions + Social older than 6 months", "(category:promotions OR category:social) older_than:6m", "Combined"⟩),
  ("aggressive", ⟨"Read, no attachments, older than 1 year", "is:read -has:attachment older_than:1y -is:starred -label:Important", "Combined"⟩)]

/-- `get_user_filter_choice(filter_map)` of gmail_bulk_delete.py
(lines 317-343), with its `input()` calls fed from a list of strings.
An invalid choice re-prompts; choosing `custom` reads a query and
re-prompts the whole loop when the stripped query is empty (lines
334-339); otherwise it returns the stored filter's query and label.
Returns `none` when the inputs run out (the operator never answered), or
on the KeyError Python would raise for a key absent from FILTERS. -/
def gufc_go (fm : List (String × String)) :
    Bool → List String → Option (String × String)
  | _, [] => none
  | true, q :: rest =>
      if pyStrip q = "" then gufc_go fm false rest
      else some (pyStrip q, "Custom query")
  | false, choice :: rest =>
      match List.lookup (pyStrip choice) fm with
      | none => gufc_go fm false rest
      | some key =>
        if key = "custom" then gufc_go fm true rest
        else
          match List.lookup key FILTERS with
          | none => none
          | some f => some (f.query, f.label)

/-- `get_user_filter_choice(filter_map)` proper: the prompt loop starts
waiting for a filter number. -/
def get_user_filter_choice (fm : List (String × String))
    (inputs : List String) : Option (String × String) :=
  gufc_go fm false inputs

/-- The large-deletion condition of gmail_bulk_delete.py line 366:
`if count > 1000`.  This is the ConfirmationGate predicate. -/
def requires_secondary_confirmation (count : Nat) : Bool :=
  decide (count > 1000)

/-- `confirm_deletion(query, count)` of gmail_bulk_delete.py (lines
346-373), with its `input()` calls fed from a list of strings.  When the
count exceeds 1000 an extra acknowledgment is read first (`.lower()` must
equal `'yes'`, otherwise `False` is returned); in every path the final
trigger is the stripped input being the literal `'DELETE'`.  Returns
`none` when the inputs run out. -/
def confirm_deletion (_query : String) (count : Nat)
    (inputs : List String) : Option Bool :=
  if requires_secondary_confirmation count then
    match inputs with
    | [] => none
    | confirm1 :: rest =>
      if pyLower confirm1 ≠ "yes" then some false
      else
        match rest with
        | [] => none
        | confirm2 :: _ => some (pyStrip confirm2 = "DELETE")
  else
    match inputs with
    | [] => none
    | confirm2 :: _ => some (pyStrip confirm2 = "DELETE")

/-! ### Helper lemmas -/

theorem lookup_eq_some_mem {β : Type} (k : String) (v : β) :
    ∀ l : List (String × β), List.lookup k l = some v → (k, v) ∈ l := by
  intro l
  induction l with
  | nil => intro h; simp [List.lookup] at h
  | cons p t ih =>
    intro h
    rw [List.lookup] at h
    cases hk : (k == p.1) with
    | true =>
      rw [hk] at h
      cases h
      have hk2 : k = p.1 := by simpa using hk
      subst hk2
      exact List.mem_cons_self _ _
    | false =>
      rw [hk] at h
      right
      exact ih h

theorem FILTERS_queries_ne_empty : ∀ p ∈ FILTERS, p.2.query ≠ "" := by decide

theorem gufc_go_ne_empty :
    ∀ (inputs : List String) (mode : Bool) (fm : List (String × String)) (q l : String),
      gufc_go fm mode inputs = some (q, l) → q ≠ "" := by
  intro inputs
  induction inputs with
  | nil => intro mode fm q l h; cases mode <;> simp [gufc_go] at h
  | cons x rest ih =>
    intro mode fm q l h
    cases mode with
    | true =>
      rw [gufc_go] at h
      by_cases hx : pyStrip x = ""
      · rw [if_pos hx] at h
        exact ih false fm q l h
      · rw [if_neg hx] at h
        cases h
        exact hx
    | false =>
      rw [gufc_go] at h
      cases hmap : List.lookup (pyStrip x) fm with
      | none =>
        rw [hmap] at h
        exact ih false fm q l h
      | some key =>
        rw [hmap] at h
        dsimp only at h
        by_cases hcust : key = "custom"
        · rw [if_pos hcust] at h
          exact ih true fm q l h
        · rw [if_neg hcust] at h
          cases hfl : List.lookup key FILTERS with
          | none => rw [hfl] at h; cases h
          | some f =>
            rw [hfl] at h
            cases h
            exact FILTERS_queries_ne_empty (key, f) (lookup_eq_some_mem key f FILTERS hfl)

theorem sizes_cons (ids : List String) (rest : List (List String)) :
    sizes (ids :: rest) = ids.length + sizes rest := by
  simp [sizes]

theorem cliLoop_okPages_prefix :
    ∀ (pref : List (List String)) (tail : List PageResult) (t : Nat),
      (∀ ids ∈ pref, ids ≠ []) →
      cliLoop (okPages pref ++ tail) t =
        (okCalls pref ++ (cliLoop tail (t + sizes pref)).1,
         (cliLoop tail (t + sizes pref)).2) := by
  intro pref
  induction pref with
  | nil =>
    intro tail t _
    simp [okPages, okCalls, sizes]
  | cons ids rest ih =>
    intro tail t hne
    have hids : ids ≠ [] := hne ids (List.mem_cons_self _ _)
    have hrest : ∀ i ∈ rest, i ≠ [] := fun i hi => hne i (List.mem_cons_of_mem _ hi)
    show cliLoop (PageResult.ok ids true none :: (okPages rest ++ tail)) t = _
    rw [cliLoop]
    rw [if_neg hids]
    dsimp only
    rw [ih tail (t + ids.length) hrest]
    simp [okCalls, sizes_cons, Nat.add_assoc]

theorem uiLoop_okPages_prefix :
    ∀ (pref : List (List String)) (tail : List PageResult) (t : Nat) (p : Progress),
      (∀ ids ∈ pref, ids ≠ []) → p.current = t →
      uiLoop (okPages pref ++ tail) t p =
        ⟨okCalls pref ++
           (uiLoop tail (t + sizes pref)
             ⟨t + sizes pref, p.total, p.status, p.error⟩).calls,
         (uiLoop tail (t + sizes pref)
           ⟨t + sizes pref, p.total, p.status, p.error⟩).prog,
         (uiLoop tail (t + sizes pref)
           ⟨t + sizes pref, p.total, p.status, p.error⟩).ret⟩ := by
  intro pref
  induction pref with
  | nil =>
    intro tail t p _ hc
    cases p
    cases hc
    simp [okPages, okCalls, sizes]
  | cons ids rest ih =>
    intro tail t p hne hc
    have hids : ids ≠ [] := hne ids (List.mem_cons_self _ _)
    have hrest : ∀ i ∈ rest, i ≠ [] := fun i hi => hne i (List.mem_cons_of_mem _ hi)
    show uiLoop (PageResult.ok ids true none :: (okPages rest ++ tail)) t p = _
    rw [uiLoop]
    rw [if_neg hids]
    dsimp only
    rw [ih tail (t + ids.length) { p with current := t + ids.length } hrest rfl]
    simp [okCalls, sizes_cons, Nat.add_assoc]

theorem cliLoop_lastPage (lastP : List String) (rest : List PageResult)
    (t : Nat) (h : lastP ≠ []) :
    cliLoop (PageResult.ok lastP false none :: rest) t =
      ([RemoteCall.list, RemoteCall.batchDelete lastP],
       RunResult.complete (t + lastP.length)) := by
  rw [cliLoop, if_neg h]
  simp

theorem uiLoop_lastPage (lastP : List String) (rest : List PageResult)
    (t : Nat) (p : Progress) (h : lastP ≠ []) :
    uiLoop (PageResult.ok lastP false none :: rest) t p =
      ⟨[RemoteCall.list, RemoteCall.batchDelete lastP],
       ⟨t + lastP.length, p.total, "complete", p.error⟩,
       some (Int.ofNat (t + lastP.length))⟩ := by
  rw [uiLoop, if_neg h]
  simp

theorem cliLoop_listFail (msg : String) (rest : List PageResult) (t : Nat) :
    cliLoop (PageResult.listFail msg :: rest) t =
      ([RemoteCall.list], RunResult.error msg t) := by
  rw [cliLoop]

theorem uiLoop_listFail (msg : String) (rest : List PageResult) (t : Nat)
    (p : Progress) :
    uiLoop (PageResult.listFail msg :: rest) t p =
      ⟨[RemoteCall.list], ⟨p.current, p.total, "error", p.error⟩,
       some (-1)⟩ := by
  rw [uiLoop]

theorem cliLoop_delFail (ids : List String) (hasNext : Bool) (msg : String)
    (rest : List PageResult) (t : Nat) (h : ids ≠ []) :
    cliLoop (PageResult.ok ids hasNext (some msg) :: rest) t =
      ([RemoteCall.list, RemoteCall.batchDelete ids],
       RunResult.error msg t) := by
  rw [cliLoop, if_neg h]

theorem uiLoop_delFail (ids : List String) (hasNext : Bool) (msg : String)
    (rest : List PageResult) (t : Nat) (p : Progress) (h : ids ≠ []) :
    uiLoop (PageResult.ok ids hasNext (some msg) :: rest) t p =
      ⟨[RemoteCall.list, RemoteCall.batchDelete ids],
       ⟨p.current, p.total, "error", p.error⟩, some (-1)⟩ := by
  rw [uiLoop, if_neg h]

theorem cliLoop_emptyPage (hn : Bool) (d : Option String)
    (rest : List PageResult) (t : Nat) :
    cliLoop (PageResult.ok [] hn d :: rest) t =
      ([RemoteCall.list], RunResult.complete t) := by
  rw [cliLoop.eq_def]
  simp

theorem uiLoop_emptyPage (hn : Bool) (d : Option String)
    (rest : List PageResult) (t : Nat) (p : Progress) :
    uiLoop (PageResult.ok [] hn d :: rest) t p =
      ⟨[RemoteCall.list], ⟨p.current, p.total, "complete", p.error⟩,
       some (Int.ofNat t)⟩ := by
  rw [uiLoop.eq_def]
  simp

theorem cliLoop_okStep (ids : List String) (rest : List PageResult) (t : Nat)
    (h : ids ≠ []) :
    cliLoop (PageResult.ok ids true none :: rest) t =
      (RemoteCall.list :: RemoteCall.batchDelete ids ::
         (cliLoop rest (t + ids.length)).1,
       (cliLoop rest (t + ids.length)).2) := by
  rw [cliLoop, if_neg h]
  simp

theorem uiLoop_okStep (ids : List String) (rest : List PageResult) (t : Nat)
    (p : Progress) (h : ids ≠ []) :
    uiLoop (PageResult.ok ids true none :: rest) t p =
      ⟨RemoteCall.list :: RemoteCall.batchDelete ids ::
         (uiLoop rest (t + ids.length)
           { p with current := t + ids.length }).calls,
       (uiLoop rest (t + ids.length)
         { p with current := t + ids.length }).prog,
       (uiLoop rest (t + ids.length)
         { p with current := t + ids.length }).ret⟩ := by
  rw [uiLoop, if_neg h]
  simp

theorem sizes_const (pref : List (List String)) (B : Nat)
    (h : ∀ ids ∈ pref, ids.length = B) : sizes pref = pref.length * B := by
  induction pref with
  | nil => simp [sizes]
  | cons ids rest ih =>
    have h1 : ids.length = B := h ids (List.mem_cons_self _ _)
    have h2 : sizes rest = rest.length * B :=
      ih fun i hi => h i (List.mem_cons_of_mem _ hi)
    rw [sizes_cons, h1, h2]
    simp [List.length_cons, Nat.succ_mul, Nat.add_comm]

theorem ceil_full_pages (k B L : Nat) (hB : 0 < B) (hL : 0 < L)
    (hLB : L ≤ B) : (k * B + L + B - 1) / B = k + 1 := by
  have h2 : B * (k + 1) = B * k + B := by ring
  have h1 : k * B + L + B - 1 = B * (k + 1) + (L - 1) := by
    rw [h2, Nat.mul_comm k B]
    generalize B * k = m
    omega
  rw [h1, Nat.mul_add_div hB]
  rw [Nat.div_eq_of_lt (by omega)]

theorem nodup_flatten_countP (L : List (List String))
    (h : L.flatten.Nodup) (id : String) :
    L.countP (fun b => decide (id ∈ b)) ≤ 1 := by
  induction L with
  | nil => simp
  | cons b rest ih =>
    have hb : (b ++ rest.flatten).Nodup := by simpa using h
    rw [List.nodup_append] at hb
    rw [List.countP_cons]
    by_cases hid : id ∈ b
    · have hnotin : id ∉ rest.flatten := fun hj => hb.2.2 hid hj
      have hzero : rest.countP (fun c => decide (id ∈ c)) = 0 := by
        rw [List.countP_eq_zero]
        intro c hc
        simp only [decide_eq_true_eq]
        intro hic
        exact hnotin (List.mem_flatten.mpr ⟨c, hc, hic⟩)
      simp [hzero, hid]
    · simpa [hid] using ih hb.2.1

theorem cliLoop_batchDelete_mem :
    ∀ (env : List PageResult) (t : Nat) (ids : List String),
      RemoteCall.batchDelete ids ∈ (cliLoop env t).1 →
      ∃ hn d, PageResult.ok ids hn d ∈ env := by
  intro env
  induction env with
  | nil => intro t ids h; simp [cliLoop] at h
  | cons pg rest ih =>
    intro t ids h
    cases pg with
    | listFail msg =>
      rw [cliLoop_listFail] at h
      simp at h
    | ok ids2 hn d =>
      by_cases hids2 : ids2 = []
      · subst hids2
        rw [cliLoop.eq_def] at h
        simp at h
      · cases d with
        | some msg =>
          rw [cliLoop_delFail _ _ _ _ _ hids2] at h
          simp at h
          subst h
          exact ⟨hn, some msg, List.mem_cons_self _ _⟩
        | none =>
          cases hn with
          | true =>
            rw [cliLoop] at h
            rw [if_neg hids2] at h
            simp at h
            rcases h with h | h
            · subst h
              exact ⟨true, none, List.mem_cons_self _ _⟩
            · rcases ih (t + ids2.length) ids h with ⟨hn2, d2, hmem⟩
              exact ⟨hn2, d2, List.mem_cons_of_mem _ hmem⟩
          | false =>
            rw [cliLoop] at h
            rw [if_neg hids2] at h
            simp at h
            subst h
            exact ⟨false, none, List.mem_cons_self _ _⟩

theorem uiLoop_terminates :
    ∀ (env : List PageResult) (t : Nat) (p : Progress),
      traceTerminates env = true →
      (uiLoop env t p).ret.isSome = true ∧
      ((uiLoop env t p).prog.status = "complete" ∨
       (uiLoop env t p).prog.status = "error") := by
  intro env
  induction env with
  | nil => intro t p h; simp [traceTerminates] at h
  | cons pg rest ih =>
    intro t p h
    cases pg with
    | listFail msg => rw [uiLoop_listFail]; simp
    | ok ids hn d =>
      by_cases hids : ids = []
      · subst hids
        rw [uiLoop.eq_def]
        simp
      · cases d with
        | some msg =>
          rw [uiLoop_delFail _ _ _ _ _ _ hids]
          simp
        | none =>
          cases hn with
          | true =>
            have hrest : traceTerminates rest = true := by
              rw [traceTerminates, if_neg hids] at h
              simpa using h
            have hrec := ih (t + ids.length) { p with current := t + ids.length } hrest
            rw [uiLoop.eq_def]
            simp only [if_neg hids]
            exact hrec
          | false =>
            rw [uiLoop_lastPage _ _ _ _ hids]
            simp

theorem uiLoop_total_fixed :
    ∀ (env : List PageResult) (t : Nat) (p : Progress),
      (uiLoop env t p).prog.total = p.total := by
  intro env
  induction env with
  | nil => intro t p; simp [uiLoop]
  | cons pg rest ih =>
    intro t p
    cases pg with
    | listFail msg => rw [uiLoop_listFail]
    | ok ids hn d =>
      by_cases hids : ids = []
      · subst hids
        rw [uiLoop.eq_def]
        simp
      · cases d with
        | some msg => rw [uiLoop_delFail _ _ _ _ _ _ hids]
        | none =>
          cases hn with
          | true =>
            have hrec := ih (t + ids.length) { p with current := t + ids.length }
            rw [uiLoop.eq_def]
            simp only [if_neg hids]
            exact hrec
          | false =>
            rw [uiLoop_lastPage _ _ _ _ hids]

theorem uiLoop_total_indep :
    ∀ (env : List PageResult) (t cur : Nat) (st2 : String)
      (er : Option String) (tot1 tot2 : Int),
      (uiLoop env t ⟨cur, tot1, st2, er⟩).calls =
        (uiLoop env t ⟨cur, tot2, st2, er⟩).calls ∧
      (uiLoop env t ⟨cur, tot1, st2, er⟩).ret =
        (uiLoop env t ⟨cur, tot2, st2, er⟩).ret ∧
      (uiLoop env t ⟨cur, tot1, st2, er⟩).prog.current =
        (uiLoop env t ⟨cur, tot2, st2, er⟩).prog.current ∧
      (uiLoop env t ⟨cur, tot1, st2, er⟩).prog.status =
        (uiLoop env t ⟨cur, tot2, st2, er⟩).prog.status ∧
      (uiLoop env t ⟨cur, tot1, st2, er⟩).prog.error =
        (uiLoop env t ⟨cur, tot2, st2, er⟩).prog.error := by
  intro env
  induction env with
  | nil => intro t cur st2 er tot1 tot2; simp [uiLoop]
  | cons pg rest ih =>
    intro t cur st2 er tot1 tot2
    cases pg with
    | listFail msg => rw [uiLoop_listFail, uiLoop_listFail]; simp
    | ok ids hn d =>
      by_cases hids : ids = []
      · subst hids
        rw [uiLoop_emptyPage, uiLoop_emptyPage]
        simp
      · cases d with
        | some msg =>
          rw [uiLoop_delFail _ _ _ _ _ _ hids, uiLoop_delFail _ _ _ _ _ _ hids]
          simp
        | none =>
          cases hn with
          | true =>
            have hrec := ih (t + ids.length) (t + ids.length) st2 er tot1 tot2
            rw [uiLoop_okStep _ _ _ _ hids, uiLoop_okStep _ _ _ _ hids]
            exact ⟨by simp [hrec.1], hrec.2.1, hrec.2.2.1,
                   hrec.2.2.2.1, hrec.2.2.2.2⟩
          | false =>
            rw [uiLoop_lastPage _ _ _ _ hids, uiLoop_lastPage _ _ _ _ hids]
            simp

theorem loop_equiv :
    ∀ (env : List PageResult) (t : Nat) (p : Progress),
      (uiLoop env t p).calls = (cliLoop env t).1 ∧
      (∀ n, (cliLoop env t).2 = RunResult.complete n →
        (uiLoop env t p).ret = some (Int.ofNat n)) ∧
      (∀ msg n, (cliLoop env t).2 = RunResult.error msg n →
        (uiLoop env t p).ret = some (-1)) := by
  intro env
  induction env with
  | nil =>
    intro t p
    refine ⟨rfl, ?_, ?_⟩
    · intro n h; simp [cliLoop] at h
    · intro msg n h; simp [cliLoop] at h
  | cons pg rest ih =>
    intro t p
    cases pg with
    | listFail msg =>
      rw [uiLoop_listFail, cliLoop_listFail]
      refine ⟨rfl, ?_, ?_⟩
      · intro n h; cases h
      · intro msg2 n h; rfl
    | ok ids hn d =>
      by_cases hids : ids = []
      · subst hids
        rw [uiLoop_emptyPage, cliLoop_emptyPage]
        refine ⟨rfl, ?_, ?_⟩
        · intro n h
          cases h
          rfl
        · intro msg n h; cases h
      · cases d with
        | some msg =>
          rw [uiLoop_delFail _ _ _ _ _ _ hids, cliLoop_delFail _ _ _ _ _ hids]
          refine ⟨rfl, ?_, ?_⟩
          · intro n h; cases h
          · intro msg2 n h; rfl
        | none =>
          cases hn with
          | true =>
            have hrec := ih (t + ids.length) { p with current := t + ids.length }
            rw [uiLoop_okStep _ _ _ _ hids, cliLoop_okStep _ _ _ hids]
            refine ⟨by simp [hrec.1], ?_, ?_⟩
            · intro n h
              exact hrec.2.1 n h
            · intro msg n h
              exact hrec.2.2 msg n h
          | false =>
            rw [uiLoop_lastPage _ _ _ _ hids, cliLoop_lastPage _ _ _ hids]
            refine ⟨rfl, ?_, ?_⟩
            · intro n h
              cases h
              rfl
            · intro msg n h; cases h

theorem batchesOf_okCalls : ∀ pref : List (List String),
    batchesOf (okCalls pref) = pref := by
  intro pref
  induction pref with
  | nil => rfl
  | cons ids rest ih => simp [okCalls, batchesOf] at ih ⊢; exact ih

theorem api_delete_flagged (st : ServerState) (q : String)
    (c : CountCallOutcome) (env : List PageResult)
    (h : st.deletion_in_progress = true) :
    api_delete st q c env = (ApiDeleteResponse.alreadyRunning, st, []) := by
  simp [api_delete, h]

theorem api_delete_accepts (st : ServerState) (q : String)
    (c : CountCallOutcome) (env : List PageResult)
    (h1 : st.deletion_in_progress = false) (h2 : q ≠ "") :
    api_delete st q c env =
      (ApiDeleteResponse.started, (do_deletion c env st).1,
       (do_deletion c env st).2) := by
  simp [api_delete, h1, h2]

/-! ### Claim theorems -/

/-- C5 counterexample: in the command-line embedding (`count_emails` of
gmail_bulk_delete.py) a remote HttpError during the count produces the
same return value as a legitimate count of zero, so the failure sentinel
is not distinguishable from every legitimate count. -/
theorem c5_counterexample :
    count_emails (CountCallOutcome.httpError ("network down")) =
      count_emails (CountCallOutcome.ok 0) := by
  rfl

/-- C5 (amended): the web-server count operation returns the sentinel -1
on remote failure, distinguishable from every legitimate count (which is
the nonnegative estimate); the command-line count operation instead
returns 0 on failure, which coincides with a genuine count of zero. -/
theorem c5_count_failure_sentinel :
    (∀ msg, ui_count_emails (CountCallOutcome.httpError msg) = -1) ∧
    (∀ n, ui_count_emails (CountCallOutcome.ok n) = Int.ofNat n ∧
      0 ≤ ui_count_emails (CountCallOutcome.ok n)) ∧
    (∀ msg, count_emails (CountCallOutcome.httpError msg) = 0) := by
  refine ⟨fun msg => rfl, fun n => ⟨rfl, ?_⟩, fun msg => rfl⟩
  simp [ui_count_emails]

/-- C6: the secondary-confirmation policy of `confirm_deletion` is the
pure predicate count > 1000: the extra acknowledgment input is consumed
exactly when the predicate holds (returning False unless it lowercases to
yes, then requiring the literal DELETE), otherwise only the stripped
literal DELETE trigger is read; boundary: not required at 1000, required
at 1001. -/
theorem c6_secondary_confirmation_policy :
    requires_secondary_confirmation 1000 = false ∧
    requires_secondary_confirmation 1001 = true ∧
    (∀ c : Nat, requires_secondary_confirmation c = true ↔ 1000 < c) ∧
    (∀ (q : String) (c : Nat) (i : String) (rest : List String),
      c ≤ 1000 →
      confirm_deletion q c (i :: rest) =
        some (decide (pyStrip i = "DELETE"))) ∧
    (∀ (q : String) (c : Nat) (a : String) (rest : List String),
      1000 < c →
      confirm_deletion q c (a :: rest) =
        if pyLower a = "yes" then
          (match rest with
           | [] => none
           | c2 :: _ => some (decide (pyStrip c2 = "DELETE")))
        else some false) := by
  refine ⟨rfl, rfl, ?_, ?_, ?_⟩
  · intro c
    simp [requires_secondary_confirmation]
  · intro q c i rest hc
    have hnot : requires_secondary_confirmation c = false := by
      simp [requires_secondary_confirmation]
      omega
    simp [confirm_deletion, hnot]
  · intro q c a rest hc
    have hreq : requires_secondary_confirmation c = true := by
      simp [requires_secondary_confirmation]
      omega
    by_cases hy : pyLower a = "yes"
    · simp [confirm_deletion, hreq, hy]
    · simp [confirm_deletion, hreq, hy]

/-- C6 witness: at 1000 only the DELETE trigger is read; at 1001 a failed
acknowledgment aborts with False. -/
theorem c6_witness :
    confirm_deletion ("x") 1000 ["DELETE"] = some true ∧
    confirm_deletion ("x") 1001 ["no"] = some false := by
  constructor
  · have h := c6_secondary_confirmation_policy.2.2.2.1 ("x") 1000 ("DELETE")
      [] (by decide)
    rw [h]
    decide
  · have h := c6_secondary_confirmation_policy.2.2.2.2 ("x") 1001 ("no")
      [] (by decide)
    rw [h]
    decide

/-- C3: a requested batch size larger than the hard maximum 500 is
silently truncated to 500 before the loop runs (the first component of
`delete_emails_by_query` is the `maxResults` the code sends with every
list call), and — provided the remote honors that `maxResults` bound on
every page it returns — every batch-delete call issued by the loop
receives at most 500 identifiers. -/
theorem c3_batch_size_clamped (batch_size : Nat) (env : List PageResult)
    (hremote : ∀ ids hn d, PageResult.ok ids hn d ∈ env →
      ids.length ≤ (delete_emails_by_query batch_size env).1) :
    (∀ c ∈ (delete_emails_by_query batch_size env).2.1,
      callBatchSize c ≤ 500) ∧
    (500 < batch_size → (delete_emails_by_query batch_size env).1 = 500) ∧
    (delete_emails_by_query batch_size env).1 ≤ 500 ∧
    (delete_emails_by_query batch_size env).1 =
      effectiveBatchSize batch_size := by
  have heff : (delete_emails_by_query batch_size env).1 =
      effectiveBatchSize batch_size := rfl
  have hle : effectiveBatchSize batch_size ≤ 500 := by
    unfold effectiveBatchSize
    by_cases h : batch_size > 500
    · simp [h]
    · simp [h]
      omega
  refine ⟨?_, ?_, ?_, heff⟩
  · intro c hc
    cases c with
    | list => simp [callBatchSize]
    | batchDelete ids =>
      have hmem : RemoteCall.batchDelete ids ∈ (cliLoop env 0).1 := hc
      rcases cliLoop_batchDelete_mem env 0 ids hmem with ⟨hn, d, hpg⟩
      have := hremote ids hn d hpg
      rw [heff] at this
      calc callBatchSize (RemoteCall.batchDelete ids) = ids.length := rfl
      _ ≤ effectiveBatchSize batch_size := this
      _ ≤ 500 := hle
  · intro h
    rw [heff]
    simp [effectiveBatchSize, h]
  · rw [heff]
    exact hle

/-- C3 witness: a requested batch size of 750 is clamped to 500, and on a
single returned page within the bound every batch-delete call carries at
most 500 ids. -/
theorem c3_witness :
    (∀ c ∈ (delete_emails_by_query 750 [PageResult.ok ["a"] false none]).2.1,
      callBatchSize c ≤ 500) ∧
    (500 < 750 →
      (delete_emails_by_query 750 [PageResult.ok ["a"] false none]).1 = 500) ∧
    (delete_emails_by_query 750 [PageResult.ok ["a"] false none]).1 ≤ 500 ∧
    (delete_emails_by_query 750 [PageResult.ok ["a"] false none]).1 =
      effectiveBatchSize 750 := by
  refine c3_batch_size_clamped 750 [PageResult.ok ["a"] false none] ?_
  intro ids hn d h
  simp at h
  rw [h.1]
  decide

/-- C7: an empty custom query is rejected before any remote call: the web
delete endpoint answers the 400 `No query` response with the state
untouched and an empty remote-call trace, and the CLI prompt loop
`get_user_filter_choice` can only ever return a nonempty query (an empty
custom input re-prompts; stored filters all carry nonempty queries). -/
theorem c7_empty_query_rejected :
    (∀ (st : ServerState) (c : CountCallOutcome) (env : List PageResult),
      st.deletion_in_progress = false →
      api_delete st ("") c env = (ApiDeleteResponse.noQuery, st, [])) ∧
    (∀ (fm : List (String × String)) (inputs : List String) (q l : String),
      get_user_filter_choice fm inputs = some (q, l) → q ≠ "") := by
  constructor
  · intro st c env h
    simp [api_delete, h]
  · intro fm inputs q l h
    exact gufc_go_ne_empty inputs false fm q l h

/-- C7 witness: a concrete empty-query request is rejected with no remote
call, and a concrete prompt session returns a nonempty custom query. -/
theorem c7_witness :
    api_delete ⟨false, ⟨0, 0, "idle", none⟩⟩ ("") (CountCallOutcome.ok 3)
        [PageResult.ok ["a"] false none] =
      (ApiDeleteResponse.noQuery, ⟨false, ⟨0, 0, "idle", none⟩⟩, []) ∧
    ("is:read" ≠ "") :=
  ⟨c7_empty_query_rejected.1 ⟨false, ⟨0, 0, "idle", none⟩⟩
     (CountCallOutcome.ok 3) [PageResult.ok ["a"] false none] rfl,
   c7_empty_query_rejected.2 [("1", "custom")] ["1", "is:read"]
     ("is:read") ("Custom query") (by decide)⟩

theorem isNone_false_of_isSome {α : Type} (o : Option α)
    (h : o.isSome = true) : o.isNone = false := by
  cases o
  · simp at h
  · simp

theorem do_deletion_eq (c : CountCallOutcome) (env : List PageResult)
    (st : ServerState) :
    do_deletion c env st =
      (⟨(uiLoop env 0
           ⟨0, ui_count_emails c, "deleting",
            st.deletion_progress.error⟩).ret.isNone,
        (uiLoop env 0
           ⟨0, ui_count_emails c, "deleting",
            st.deletion_progress.error⟩).prog⟩,
       RemoteCall.list ::
         (uiLoop env 0
           ⟨0, ui_count_emails c, "deleting",
            st.deletion_progress.error⟩).calls) := rfl

/-- C4: admission is a single shared flag: while `deletion_in_progress`
is set, any start request — whatever its query — is rejected with the
AlreadyRunning response and the state is untouched; a start accepted on a
terminating run ends with the flag cleared, the job in a terminal status
(complete or error), and a subsequent start request with a nonempty query
is accepted again.  In this sequential embedding the single job slot of
the model carries the process-wide uniqueness of a running job. -/
theorem c4_single_running_job :
    ∀ (st : ServerState) (q : String) (c : CountCallOutcome)
      (env : List PageResult),
      (st.deletion_in_progress = true →
        api_delete st q c env = (ApiDeleteResponse.alreadyRunning, st, [])) ∧
      (st.deletion_in_progress = false → q ≠ "" →
        traceTerminates env = true →
        (api_delete st q c env).1 = ApiDeleteResponse.started ∧
        (api_delete st q c env).2.1.deletion_in_progress = false ∧
        ((api_delete st q c env).2.1.deletion_progress.status = "complete" ∨
         (api_delete st q c env).2.1.deletion_progress.status = "error") ∧
        (∀ (q2 : String) (c2 : CountCallOutcome) (env2 : List PageResult),
          q2 ≠ "" →
          (api_delete (api_delete st q c env).2.1 q2 c2 env2).1 =
            ApiDeleteResponse.started)) := by
  intro st q c env
  constructor
  · intro h
    exact api_delete_flagged st q c env h
  · intro h1 h2 hterm
    rw [api_delete_accepts st q c env h1 h2, do_deletion_eq]
    have hrun := uiLoop_terminates env 0
      ⟨0, ui_count_emails c, "deleting", st.deletion_progress.error⟩ hterm
    have hflag := isNone_false_of_isSome _ hrun.1
    refine ⟨rfl, hflag, hrun.2, ?_⟩
    intro q2 c2 env2 hq2
    rw [api_delete]
    simp only [hflag]
    rw [if_neg (by simp), if_neg hq2]

/-- C4 witness: a start is rejected while the flag is held; a concrete
accepted run clears the flag, ends terminal, and admits the next start. -/
theorem c4_witness :
    api_delete ⟨true, ⟨0, 0, "deleting", none⟩⟩ ("is:read")
        (CountCallOutcome.ok 1) [PageResult.ok ["a"] false none] =
      (ApiDeleteResponse.alreadyRunning, ⟨true, ⟨0, 0, "deleting", none⟩⟩,
       []) ∧
    (api_delete ⟨false, ⟨0, 0, "idle", none⟩⟩ ("is:read")
        (CountCallOutcome.ok 1) [PageResult.ok ["a"] false none]).1 =
      ApiDeleteResponse.started ∧
    (api_delete ⟨false, ⟨0, 0, "idle", none⟩⟩ ("is:read")
        (CountCallOutcome.ok 1)
        [PageResult.ok ["a"] false none]).2.1.deletion_in_progress =
      false ∧
    ((api_delete ⟨false, ⟨0, 0, "idle", none⟩⟩ ("is:read")
        (CountCallOutcome.ok 1)
        [PageResult.ok ["a"] false none]).2.1.deletion_progress.status =
      "complete" ∨
     (api_delete ⟨false, ⟨0, 0, "idle", none⟩⟩ ("is:read")
        (CountCallOutcome.ok 1)
        [PageResult.ok ["a"] false none]).2.1.deletion_progress.status =
      "error") := by
  have hrej := (c4_single_running_job ⟨true, ⟨0, 0, "deleting", none⟩⟩
    ("is:read") (CountCallOutcome.ok 1)
    [PageResult.ok ["a"] false none]).1 rfl
  have hacc := (c4_single_running_job ⟨false, ⟨0, 0, "idle", none⟩⟩
    ("is:read") (CountCallOutcome.ok 1)
    [PageResult.ok ["a"] false none]).2 rfl (by decide) (by decide)
  exact ⟨hrej, hacc.1, hacc.2.1, hacc.2.2.1⟩

/-- C8: once the job has reached a terminal status, the read-progress
endpoint observes exactly the job's final published snapshot, whose
status is terminal (complete or error); reading is a pure function of the
server state, so the snapshot stays available until a new job overwrites
it. -/
theorem c8_terminal_snapshot_readable :
    ∀ (st : ServerState) (q : String) (c : CountCallOutcome)
      (env : List PageResult),
      st.deletion_in_progress = false → q ≠ "" →
      traceTerminates env = true →
      api_progress (api_delete st q c env).2.1 =
        (ui_delete_emails_by_query env
          ⟨0, ui_count_emails c, st.deletion_progress.status,
           st.deletion_progress.error⟩).prog ∧
      ((api_progress (api_delete st q c env).2.1).status = "complete" ∨
       (api_progress (api_delete st q c env).2.1).status = "error") := by
  intro st q c env h1 h2 hterm
  rw [api_delete_accepts st q c env h1 h2, do_deletion_eq]
  have hrun := uiLoop_terminates env 0
    ⟨0, ui_count_emails c, "deleting", st.deletion_progress.error⟩ hterm
  exact ⟨rfl, hrun.2⟩

/-- C8 witness: after a concrete run ends in the Error status, polling
returns the terminal snapshot with the partial count preserved. -/
theorem c8_witness :
    api_progress (api_delete ⟨false, ⟨0, 0, "idle", none⟩⟩ ("is:read")
        (CountCallOutcome.ok 9)
        [PageResult.ok ["a"] true none, PageResult.listFail "boom"]).2.1 =
      ⟨1, 9, "error", none⟩ ∧
    ((api_progress (api_delete ⟨false, ⟨0, 0, "idle", none⟩⟩ ("is:read")
        (CountCallOutcome.ok 9)
        [PageResult.ok ["a"] true none,
         PageResult.listFail "boom"]).2.1).status = "complete" ∨
     (api_progress (api_delete ⟨false, ⟨0, 0, "idle", none⟩⟩ ("is:read")
        (CountCallOutcome.ok 9)
        [PageResult.ok ["a"] true none,
         PageResult.listFail "boom"]).2.1).status = "error") := by
  have h := c8_terminal_snapshot_readable ⟨false, ⟨0, 0, "idle", none⟩⟩
    ("is:read") (CountCallOutcome.ok 9)
    [PageResult.ok ["a"] true none, PageResult.listFail "boom"]
    rfl (by decide) (by decide)
  refine ⟨?_, h.2⟩
  rw [h.1]
  decide

/-- C9: the web delete endpoint applies no confirmation gate of its own:
with the flag clear and a nonempty query it always answers started, and
the whole destructive behaviour — the remote calls issued, the final
flag, the final progress count and status — is identical for any two
outcomes of the count (the count only lands in the displayed total), so
no count-threshold or confirmation predicate is consulted; the
double-confirmation dialogs live only in the browser-side script. -/
theorem c9_core_has_no_confirmation_gate :
    ∀ (st : ServerState) (q : String) (c c2 : CountCallOutcome)
      (env : List PageResult),
      st.deletion_in_progress = false → q ≠ "" →
      (api_delete st q c env).1 = ApiDeleteResponse.started ∧
      (api_delete st q c env).2.2 = (api_delete st q c2 env).2.2 ∧
      (api_delete st q c env).2.1.deletion_in_progress =
        (api_delete st q c2 env).2.1.deletion_in_progress ∧
      (api_delete st q c env).2.1.deletion_progress.current =
        (api_delete st q c2 env).2.1.deletion_progress.current ∧
      (api_delete st q c env).2.1.deletion_progress.status =
        (api_delete st q c2 env).2.1.deletion_progress.status := by
  intro st q c c2 env h1 h2
  rw [api_delete_accepts st q c env h1 h2,
    api_delete_accepts st q c2 env h1 h2, do_deletion_eq, do_deletion_eq]
  have hind := uiLoop_total_indep env 0 0 "deleting"
    st.deletion_progress.error (ui_count_emails c) (ui_count_emails c2)
  exact ⟨rfl, by rw [hind.1], by rw [hind.2.1], hind.2.2.1,
    hind.2.2.2.1⟩

/-- C9 witness: with a failed count (sentinel -1) and with a count of
5000 (above every confirmation threshold) the endpoint still starts the
job and deletes identically. -/
theorem c9_witness :
    (api_delete ⟨false, ⟨0, 0, "idle", none⟩⟩ ("is:read")
        (CountCallOutcome.httpError "down")
        [PageResult.ok ["a"] false none]).1 = ApiDeleteResponse.started ∧
    (api_delete ⟨false, ⟨0, 0, "idle", none⟩⟩ ("is:read")
        (CountCallOutcome.httpError "down")
        [PageResult.ok ["a"] false none]).2.2 =
      (api_delete ⟨false, ⟨0, 0, "idle", none⟩⟩ ("is:read")
        (CountCallOutcome.ok 5000)
        [PageResult.ok ["a"] false none]).2.2 ∧
    (api_delete ⟨false, ⟨0, 0, "idle", none⟩⟩ ("is:read")
        (CountCallOutcome.httpError "down")
        [PageResult.ok ["a"] false none]).2.1.deletion_progress.current =
      (api_delete ⟨false, ⟨0, 0, "idle", none⟩⟩ ("is:read")
        (CountCallOutcome.ok 5000)
        [PageResult.ok ["a"] false none]).2.1.deletion_progress.current := by
  have h := c9_core_has_no_confirmation_gate ⟨false, ⟨0, 0, "idle", none⟩⟩
    ("is:read") (CountCallOutcome.httpError "down") (CountCallOutcome.ok 5000)
    [PageResult.ok ["a"] false none] rfl (by decide)
  exact ⟨h.1, h.2.1, h.2.2.2.1⟩

/-- C10: over the same sequence of listed pages the CLI and the
web-server deletion loops issue exactly the same remote calls (in
particular the same batch-delete calls), and on an error-free run both
report the same total deleted count; on the remote-error path they
diverge only in the return value — the CLI returns the partial count,
the web loop returns -1. -/
theorem c10_cli_web_equivalence :
    ∀ (batch_size : Nat) (env : List PageResult) (p : Progress),
      (delete_emails_by_query batch_size env).2.1 =
        (ui_delete_emails_by_query env p).calls ∧
      (∀ n, (cliLoop env 0).2 = RunResult.complete n →
        (delete_emails_by_query batch_size env).2.2 = some n ∧
        (ui_delete_emails_by_query env p).ret = some (Int.ofNat n)) ∧
      (∀ msg n, (cliLoop env 0).2 = RunResult.error msg n →
        (delete_emails_by_query batch_size env).2.2 = some n ∧
        (ui_delete_emails_by_query env p).ret = some (-1)) := by
  intro batch_size env p
  have hequiv := loop_equiv env 0 { p with status := "deleting" }
  refine ⟨?_, ?_, ?_⟩
  · show (cliLoop env 0).1 = (uiLoop env 0 _).calls
    exact hequiv.1.symm
  · intro n h
    constructor
    · show (match (cliLoop env 0).2 with
        | RunResult.complete t => some t
        | RunResult.error _ t => some t
        | RunResult.outOfPages _ => none) = some n
      rw [h]
    · exact hequiv.2.1 n h
  · intro msg n h
    constructor
    · show (match (cliLoop env 0).2 with
        | RunResult.complete t => some t
        | RunResult.error _ t => some t
        | RunResult.outOfPages _ => none) = some n
      rw [h]
    · exact hequiv.2.2 msg n h

/-- C10 witness: on a concrete error run both loops made the same calls,
the CLI returned the partial count 1 and the web loop -1. -/
theorem c10_witness :
    (delete_emails_by_query 500
        [PageResult.ok ["a"] true none, PageResult.listFail "x"]).2.1 =
      (ui_delete_emails_by_query
        [PageResult.ok ["a"] true none, PageResult.listFail "x"]
        ⟨0, 0, "idle", none⟩).calls ∧
    (delete_emails_by_query 500
        [PageResult.ok ["a"] true none, PageResult.listFail "x"]).2.2 =
      some 1 ∧
    (ui_delete_emails_by_query
        [PageResult.ok ["a"] true none, PageResult.listFail "x"]
        ⟨0, 0, "idle", none⟩).ret = some (-1) := by
  have h := c10_cli_web_equivalence 500
    [PageResult.ok ["a"] true none, PageResult.listFail "x"]
    ⟨0, 0, "idle", none⟩
  have herr := h.2.2 ("x") 1 (by decide)
  exact ⟨h.1, herr.1, herr.2⟩

/-- C1 counterexample: an error-free run over pages of size at most B
(B = 500, the effective batch size) need not issue ceil(N/B) batch-delete
calls: the loop issues one batch-delete per non-empty returned page, so
two pages of one id each (N = 2) cost two calls although
ceil(2/500) = 1. -/
theorem c1_counterexample :
    List.all [PageResult.ok ["a"] true none, PageResult.ok ["b"] false none]
      (fun pg =>
        match pg with
        | PageResult.ok ids _ _ => decide (ids.length ≤ 500)
        | PageResult.listFail _ => true) = true ∧
    (cliLoop [PageResult.ok ["a"] true none,
        PageResult.ok ["b"] false none] 0).2 = RunResult.complete 2 ∧
    (batchesOf (cliLoop [PageResult.ok ["a"] true none,
        PageResult.ok ["b"] false none] 0).1).length = 2 ∧
    (2 + 500 - 1) / 500 = 1 ∧
    (batchesOf (cliLoop [PageResult.ok ["a"] true none,
        PageResult.ok ["b"] false none] 0).1).length ≠
      (2 + 500 - 1) / 500 := by
  decide

/-- C1 (amended): an error-free run issues one batch-delete call per
returned non-empty page and deletes every listed id exactly once: over N
ids split into full pages of size B with only the last page possibly
smaller (the spec's "split into pages of size B"), the run completes
with deleted count N and issues exactly ceil(N/B) batch-delete calls,
the batches being exactly the pages (so no id is in two batches when the
pages are disjoint); a query with zero matches exits on the first empty
page with count 0, a complete result, and no batch-delete call. -/
theorem c1_successful_run (full : List (List String)) (lastP : List String)
    (B : Nat) (hB : 0 < B) (hfull : ∀ p2 ∈ full, p2.length = B)
    (hlast1 : lastP ≠ []) (hlast2 : lastP.length ≤ B) :
    (cliLoop (okPages full ++ [PageResult.ok lastP false none]) 0).2 =
      RunResult.complete (sizes full + lastP.length) ∧
    batchesOf (cliLoop (okPages full ++
        [PageResult.ok lastP false none]) 0).1 = full ++ [lastP] ∧
    (full ++ [lastP]).length = (sizes full + lastP.length + B - 1) / B ∧
    ((full ++ [lastP]).flatten.Nodup → ∀ id : String,
      (full ++ [lastP]).countP (fun b => decide (id ∈ b)) ≤ 1) ∧
    cliLoop [PageResult.ok [] false none] 0 =
      ([RemoteCall.list], RunResult.complete 0) := by
  have hfullne : ∀ p2 ∈ full, p2 ≠ [] := by
    intro p2 hp he
    have hl := hfull p2 hp
    rw [he] at hl
    simp at hl
    omega
  have hrun := cliLoop_okPages_prefix full
    [PageResult.ok lastP false none] 0 hfullne
  have htail := cliLoop_lastPage lastP [] (0 + sizes full) hlast1
  refine ⟨?_, ?_, ?_, ?_, by decide⟩
  · rw [hrun, htail]
    simp
  · rw [hrun, htail]
    simp only [batchesOf, List.filterMap_append]
    show batchesOf (okCalls full) ++ batchesOf _ = full ++ [lastP]
    rw [batchesOf_okCalls]
    rfl
  · have hlen : 0 < lastP.length := List.length_pos.mpr hlast1
    rw [sizes_const full B hfull,
      ceil_full_pages full.length B lastP.length hB hlen hlast2]
    simp
  · intro h id
    exact nodup_flatten_countP _ h id

/-- C1 witness: two full pages of size 2 and a final page of size 1
(N = 5, B = 2) complete with count 5 in ceil(5/2) = 3 batches that are
exactly the disjoint pages. -/
theorem c1_witness :
    (cliLoop (okPages [["a", "b"], ["c", "d"]] ++
        [PageResult.ok ["e"] false none]) 0).2 =
      RunResult.complete (sizes [["a", "b"], ["c", "d"]] + 1) ∧
    batchesOf (cliLoop (okPages [["a", "b"], ["c", "d"]] ++
        [PageResult.ok ["e"] false none]) 0).1 =
      [["a", "b"], ["c", "d"]] ++ [["e"]] ∧
    ([["a", "b"], ["c", "d"]] ++ [["e"]]).length =
      (sizes [["a", "b"], ["c", "d"]] + 1 + 2 - 1) / 2 := by
  have h := c1_successful_run [["a", "b"], ["c", "d"]] ["e"] 2
    (by decide) (by simp) (by decide) (by decide)
  exact ⟨h.1, h.2.1, h.2.2.1⟩

/-- C2 counterexample: a remote failure after two successful batches of
two ids leaves the web job with status error and the preserved count 4,
but the error-detail field of the progress state is never written (it
stays absent), so the claimed non-empty error detail does not hold. -/
theorem c2_counterexample :
    (ui_delete_emails_by_query
        [PageResult.ok ["a", "b"] true none,
         PageResult.ok ["c", "d"] true none, PageResult.listFail "boom"]
        ⟨0, 0, "idle", none⟩).prog = ⟨4, 0, "error", none⟩ ∧
    (ui_delete_emails_by_query
        [PageResult.ok ["a", "b"] true none,
         PageResult.ok ["c", "d"] true none, PageResult.listFail "boom"]
        ⟨0, 0, "idle", none⟩).prog.error = none := by
  decide

/-- C2 (amended): a remote error after k successful batches stops the
job with status Error and a progress count exactly the sum of the k
successful batch sizes — neither rolled back nor advanced — whether the
failing call is the next listing or the next batch delete; the CLI
embedding returns that same partial count; but on a remote HttpError the
web embedding leaves the progress error-detail field unchanged (absent
when it was absent: only the generic non-HTTP exception handler writes
it) and its function return value is -1. -/
theorem c2_error_preserves_partial_count (pref : List (List String))
    (msg : String) (p0 : Progress) (ids2 : List String) (hn : Bool)
    (hpref : ∀ ids ∈ pref, ids ≠ []) (hcur : p0.current = 0)
    (hids2 : ids2 ≠ []) :
    ((ui_delete_emails_by_query (okPages pref ++ [PageResult.listFail msg])
        p0).prog.status = "error" ∧
     (ui_delete_emails_by_query (okPages pref ++ [PageResult.listFail msg])
        p0).prog.current = sizes pref ∧
     (ui_delete_emails_by_query (okPages pref ++ [PageResult.listFail msg])
        p0).prog.error = p0.error ∧
     (ui_delete_emails_by_query (okPages pref ++ [PageResult.listFail msg])
        p0).ret = some (-1)) ∧
    ((ui_delete_emails_by_query (okPages pref ++
        [PageResult.ok ids2 hn (some msg)]) p0).prog.status = "error" ∧
     (ui_delete_emails_by_query (okPages pref ++
        [PageResult.ok ids2 hn (some msg)]) p0).prog.current = sizes pref ∧
     (ui_delete_emails_by_query (okPages pref ++
        [PageResult.ok ids2 hn (some msg)]) p0).prog.error = p0.error ∧
     (ui_delete_emails_by_query (okPages pref ++
        [PageResult.ok ids2 hn (some msg)]) p0).ret = some (-1)) ∧
    (cliLoop (okPages pref ++ [PageResult.listFail msg]) 0).2 =
      RunResult.error msg (sizes pref) ∧
    (delete_emails_by_query 500
        (okPages pref ++ [PageResult.listFail msg])).2.2 =
      some (sizes pref) := by
  have hcur2 : (({ p0 with status := "deleting" } : Progress)).current = 0 :=
    hcur
  have hp1 := uiLoop_okPages_prefix pref [PageResult.listFail msg] 0
    { p0 with status := "deleting" } hpref hcur2
  have hp2 := uiLoop_okPages_prefix pref [PageResult.ok ids2 hn (some msg)]
    0 { p0 with status := "deleting" } hpref hcur2
  have hc1 := cliLoop_okPages_prefix pref [PageResult.listFail msg] 0 hpref
  refine ⟨⟨?_, ?_, ?_, ?_⟩, ⟨?_, ?_, ?_, ?_⟩, ?_, ?_⟩
  · rw [ui_delete_emails_by_query, hp1, uiLoop_listFail]
  · rw [ui_delete_emails_by_query, hp1, uiLoop_listFail]
    simp
  · rw [ui_delete_emails_by_query, hp1, uiLoop_listFail]
  · rw [ui_delete_emails_by_query, hp1, uiLoop_listFail]
  · rw [ui_delete_emails_by_query, hp2, uiLoop_delFail _ _ _ _ _ _ hids2]
  · rw [ui_delete_emails_by_query, hp2, uiLoop_delFail _ _ _ _ _ _ hids2]
    simp
  · rw [ui_delete_emails_by_query, hp2, uiLoop_delFail _ _ _ _ _ _ hids2]
  · rw [ui_delete_emails_by_query, hp2, uiLoop_delFail _ _ _ _ _ _ hids2]
  · rw [hc1, cliLoop_listFail]
    simp
  · show (match (cliLoop (okPages pref ++ [PageResult.listFail msg]) 0).2 with
      | RunResult.complete t => some t
      | RunResult.error _ t => some t
      | RunResult.outOfPages _ => none) = some (sizes pref)
    rw [hc1, cliLoop_listFail]
    simp

/-- C2 witness: the spec scenario — a remote failure injected after two
successful batches of 100 — ends with status error, count 200 (not 0,
not 500), no error detail written, a web return of -1 and a CLI partial
return of 200. -/
theorem c2_witness :
    (ui_delete_emails_by_query
        (okPages [List.replicate 100 "a", List.replicate 100 "b"] ++
          [PageResult.listFail "boom"])
        ⟨0, 0, "idle", none⟩).prog.status = "error" ∧
    (ui_delete_emails_by_query
        (okPages [List.replicate 100 "a", List.replicate 100 "b"] ++
          [PageResult.listFail "boom"])
        ⟨0, 0, "idle", none⟩).prog.current = 200 ∧
    (ui_delete_emails_by_query
        (okPages [List.replicate 100 "a", List.replicate 100 "b"] ++
          [PageResult.listFail "boom"])
        ⟨0, 0, "idle", none⟩).prog.error = none ∧
    (delete_emails_by_query 500
        (okPages [List.replicate 100 "a", List.replicate 100 "b"] ++
          [PageResult.listFail "boom"])).2.2 = some 200 := by
  have h := c2_error_preserves_partial_count
    [List.replicate 100 "a", List.replicate 100 "b"] ("boom")
    ⟨0, 0, "idle", none⟩ ["c"] true ?_ rfl (by decide)
  · have hs : sizes [List.replicate 100 "a", List.replicate 100 "b"] = 200 :=
      by decide
    refine ⟨h.1.1, ?_, h.1.2.2.1, ?_⟩
    · rw [h.1.2.1, hs]
    · rw [h.2.2.2, hs]
  · intro ids hmem
    simp at hmem
    rcases hmem with h1 | h1 <;> rw [h1] <;> decide
